import Mathlib

/-
Verification of the taxonopy schema/database core against its specification.

The repository ships the CLI adapter (`src/taxonopy/_cli/__init__.py`).  The
core modules it imports (`taxonopy.schema`, `taxonopy.db`, `taxonopy.utils`,
`taxonopy._cli.arghandler`, `taxonopy._cli.db`) are not part of the sources:
definitions embedded from the CLI source say so in their doc comment and cite
the source lines, while definitions for the missing core are modelled from
the specification and start with "Modelled from the spec".
-/

namespace Taxonopy

/-! ## Query engine (`make_query` and matching, spec section 4.3) -/

/-- A record is a flat mapping from field path to scalar (string) value. -/
abbrev Record := List (String × String)

/-- Resolve a path in a record; `none` when the path is absent. -/
def resolve (r : Record) (p : String) : Option String := r.lookup p

/-- Modelled from the spec: a query is the triple (path, optional value,
exact flag); module `taxonopy.db` defining it is not in the repository. -/
structure Query where
  path : String
  value : Option String
  exact : Bool

/-- Modelled from the spec: `make_query` packs path, optional value and the
exact flag into a query (module `taxonopy.db` is not in the repository). -/
def make_query (path : String) (value : Option String) (e : Bool) : Query :=
  ⟨path, value, e⟩

/-- Case-sensitive substring test, modelling Python's `in` on `str`. -/
def substrb (needle hay : String) : Bool :=
  decide (List.IsInfix needle.toList hay.toList)

/-- Modelled from the spec: query matching against a record (module
`taxonopy.db` is not in the repository).  An absent value tests presence of
the path; with `exact` the stored value must equal the query value; without
`exact` the query value must be a case-sensitive substring of the stored
value; an unresolvable path is a non-match, never an error. -/
def Query.matches (q : Query) (r : Record) : Bool :=
  match resolve r q.path with
  | none => false
  | some v =>
    match q.value with
    | none => true
    | some w => if q.exact then v == w else substrb w v

/-- The record `{"a/b": "hello world"}` from the spec's query property. -/
def demoRec : Record := [("a/b", "hello world")]

/-- C1: a query with no value matches iff the path resolves; an exact query
matches iff the stored value equals the query value; a non-exact query
matches iff the query value is a case-sensitive substring of the stored
value; an unresolvable path never matches; and the four concrete cases on
the record `{"a/b": "hello world"}` behave as the spec states. -/
theorem C1_query_semantics :
    (∀ (r : Record) (p : String) (e : Bool),
      (make_query p none e).matches r = (resolve r p).isSome)
    ∧ (∀ (r : Record) (p w : String),
      (make_query p (some w) true).matches r = (resolve r p == some w))
    ∧ (∀ (r : Record) (p w v : String), resolve r p = some v →
      (make_query p (some w) false).matches r = substrb w v)
    ∧ (∀ (r : Record) (p : String) (w : Option String) (e : Bool),
      resolve r p = none → (make_query p w e).matches r = false)
    ∧ (make_query "a/b" (some "hello") false).matches demoRec = true
    ∧ (make_query "a/b" (some "hello") true).matches demoRec = false
    ∧ (make_query "a/b" none false).matches demoRec = true
    ∧ (make_query "a/c" none false).matches demoRec = false := by
  refine ⟨?_, ?_, ?_, ?_, by decide, by decide, by decide, by decide⟩
  · intro r p e
    cases h : resolve r p <;> simp [Query.matches, make_query, h]
  · intro r p w
    cases h : resolve r p <;> simp [Query.matches, make_query, h]
  · intro r p w v h
    simp [Query.matches, make_query, h]
  · intro r p w e h
    simp [Query.matches, make_query, h]

/-- Closed instance of `C1_query_semantics`: the substring clause evaluated
on the spec's concrete record. -/
theorem C1_query_semantics_witness :
    (make_query "a/b" (some "hello") false).matches demoRec
      = substrb "hello" "hello world" :=
  C1_query_semantics.2.2.1 demoRec "a/b" "hello" "hello world" (by decide)

/-! ## Schema tree (`SCHTree`, spec sections 3 and 4.1) -/

/-- A field node: name, flat string attributes, children.  Mirrors the spec's
Field Node (the `taxonopy.schema` module is not in the repository). -/
inductive SNode where
  | mk (name : String) (attributes : List (String × String)) (children : List SNode)

/-- The node's name. -/
def SNode.name : SNode → String
  | .mk n _ _ => n

/-- The node's attribute mapping. -/
def SNode.attributes : SNode → List (String × String)
  | .mk _ a _ => a

/-- The node's children. -/
def SNode.children : SNode → List SNode
  | .mk _ _ cs => cs

mutual
/-- All resolved paths of the tree, as root-inclusive segment lists. -/
def SNode.paths : SNode → List (List String)
  | .mk n _ cs => [n] :: (SNode.pathsList cs).map (fun p => n :: p)
/-- Concatenated paths of a list of subtrees. -/
def SNode.pathsList : List SNode → List (List String)
  | [] => []
  | c :: cs => SNode.paths c ++ SNode.pathsList cs
end

mutual
/-- The set of (path, attributes) pairs of the tree, root-inclusive paths. -/
def SNode.pathAttrs : SNode → List (List String × List (String × String))
  | .mk n a cs => ([n], a) :: (SNode.pathAttrsList cs).map (fun q => (n :: q.1, q.2))
/-- Concatenated (path, attributes) pairs of a list of subtrees. -/
def SNode.pathAttrsList : List SNode → List (List String × List (String × String))
  | [] => []
  | c :: cs => SNode.pathAttrs c ++ SNode.pathAttrsList cs
end

/-- Well-formedness: sibling names are unique throughout the tree (the spec's
"unique among siblings" invariant on Field Node names). -/
inductive SNode.WF : SNode → Prop
  | mk : ∀ n a cs, (cs.map SNode.name).Nodup → (∀ c ∈ cs, WF c) → WF (SNode.mk n a cs)

/-- Rose-tree induction principle for `SNode`. -/
def SNode.inductionOn {P : SNode → Prop}
    (h : ∀ n a cs, (∀ c ∈ cs, P c) → P (.mk n a cs)) : ∀ t, P t
  | .mk n a cs => h n a cs (fun c _ => SNode.inductionOn h c)

/-- Modelled from the spec: replacing any same-named sibling when attaching a
child (upsert semantics of `add_node`; `taxonopy.schema` is not in the
repository). -/
def upsertChild (cs : List SNode) (c : SNode) : List SNode :=
  c :: cs.filter (fun x => x.name != c.name)

/-- Walk child names from a node (segments relative to the node). -/
def SNode.findAt : SNode → List String → Option SNode
  | t, [] => some t
  | t, seg :: rest =>
    match t.children.find? (fun c => c.name == seg) with
    | none => none
    | some c => c.findAt rest

/-- Modelled from the spec: `find_by_path` resolves a root-inclusive path;
`none` models `PathNotFoundError`. -/
def find_by_path (t : SNode) (segs : List String) : Option SNode :=
  match segs with
  | [] => none
  | r :: rest => if r == t.name then t.findAt rest else none

/-- Attach `c` under the node addressed by `segs` (relative to `t`),
replacing any same-named child there; `none` when the parent is missing. -/
def SNode.insertAt : SNode → List String → SNode → Option SNode
  | t, [], c => some (SNode.mk t.name t.attributes (upsertChild t.children c))
  | t, seg :: rest, c =>
    match t.children.find? (fun x => x.name == seg) with
    | none => none
    | some ch =>
      (ch.insertAt rest c).map
        (fun ch2 => SNode.mk t.name t.attributes (upsertChild t.children ch2))

/-- Detach the node addressed by `segs` (relative to `t`, with its subtree);
`none` when the path is missing. -/
def SNode.removeAt : SNode → List String → Option SNode
  | _, [] => none
  | t, [seg] =>
    if t.children.any (fun c => c.name == seg)
      then some (SNode.mk t.name t.attributes
        (t.children.filter (fun c => c.name != seg)))
      else none
  | t, seg :: r :: rest =>
    match t.children.find? (fun x => x.name == seg) with
    | none => none
    | some ch =>
      (ch.removeAt (r :: rest)).map
        (fun ch2 => SNode.mk t.name t.attributes (upsertChild t.children ch2))

/-- Modelled from the spec: `add_node` on the whole tree state (`none` =
empty tree).  Omitting the parent path replaces the root entirely; otherwise
the parent is resolved and a fresh node is attached there with upsert
semantics.  A failed resolution leaves the tree unchanged. -/
def add_node (s : Option SNode) (name : String) (parentPath : Option (List String))
    (attrs : List (String × String)) : Option SNode :=
  match parentPath with
  | none => some (SNode.mk name attrs [])
  | some segs =>
    match s with
    | none => none
    | some root =>
      match segs with
      | [] => some root
      | rootSeg :: rest =>
        if rootSeg == root.name then
          match root.insertAt rest (SNode.mk name attrs []) with
          | none => some root
          | some r2 => some r2
        else some root

/-- Modelled from the spec: `delete_node` detaches the node (and subtree) at
a root-inclusive path; deleting the root empties the tree; a failed
resolution leaves the tree unchanged. -/
def delete_node (s : Option SNode) (path : List String) : Option SNode :=
  match s with
  | none => none
  | some root =>
    match path with
    | [] => some root
    | [r] => if r == root.name then none else some root
    | r :: p :: rest =>
      if r == root.name then
        match root.removeAt (p :: rest) with
        | none => some root
        | some r2 => some r2
      else some root

/-- A structural edit on the schema tree. -/
inductive SchemaOp where
  | add (name : String) (parentPath : Option (List String)) (attrs : List (String × String))
  | del (path : List String)

/-- Apply one edit to the tree state. -/
def applyOp (s : Option SNode) : SchemaOp → Option SNode
  | .add name parentPath attrs => add_node s name parentPath attrs
  | .del path => delete_node s path

/-- Apply a sequence of edits to the tree state. -/
def applyOps (s : Option SNode) (ops : List SchemaOp) : Option SNode :=
  ops.foldl applyOp s

/-- Embedded from `_schema_add` (src/src/taxonopy/_cli/__init__.py lines
787-796): the handler resolves `parent/name`, detaches any node found there
(`except ChildResolverError: pass` makes a missing node a no-op), then calls
`add_node(name, parent, **node_attr)`. -/
def schema_add (s : Option SNode) (name : String) (parent : List String)
    (node_attr : List (String × String)) : Option SNode :=
  add_node (delete_node s (parent ++ [name])) name (some parent) node_attr

/-- All resolved paths of a tree state. -/
def statePaths : Option SNode → List (List String)
  | none => []
  | some t => t.paths

/-- Well-formedness of a tree state. -/
def SWF : Option SNode → Prop
  | none => True
  | some t => t.WF

/-! ### Path uniqueness (claim C2) -/

theorem SNode.mem_paths_head {t : SNode} {p : List String} (hp : p ∈ t.paths) :
    ∃ q, p = t.name :: q := by
  cases t with
  | mk n a cs =>
    simp only [SNode.paths] at hp
    rcases List.mem_cons.mp hp with h | h
    · exact ⟨[], h⟩
    · rcases List.mem_map.mp h with ⟨q, _, rfl⟩
      exact ⟨q, rfl⟩

theorem SNode.pathsList_eq (cs : List SNode) :
    SNode.pathsList cs = cs.flatMap SNode.paths := by
  induction cs with
  | nil => rfl
  | cons c cs ih => simp [SNode.pathsList, ih]

theorem filter_wf {n : String} {a : List (String × String)} {cs : List SNode}
    {p : SNode → Bool} (h : SNode.WF (.mk n a cs)) :
    SNode.WF (.mk n a (cs.filter p)) := by
  cases h with
  | mk _ _ _ hnod hall =>
    refine SNode.WF.mk _ _ _ ?_ ?_
    · exact hnod.sublist (List.Sublist.map _ (List.filter_sublist _))
    · intro c hc
      exact hall c (List.mem_of_mem_filter hc)

theorem upsert_wf {n : String} {a : List (String × String)} {cs : List SNode}
    {c0 : SNode} (h : SNode.WF (.mk n a cs)) (hc0 : c0.WF) :
    SNode.WF (.mk n a (upsertChild cs c0)) := by
  cases h with
  | mk _ _ _ hnod hall =>
    refine SNode.WF.mk _ _ _ ?_ ?_
    · simp only [upsertChild, List.map_cons, List.nodup_cons]
      constructor
      · intro hmem
        rcases List.mem_map.mp hmem with ⟨x, hx, hxn⟩
        have hne := List.of_mem_filter hx
        simp only [bne_iff_ne, ne_eq] at hne
        exact hne hxn
      · exact hnod.sublist (List.Sublist.map _ (List.filter_sublist _))
    · intro c hc
      rcases List.mem_cons.mp hc with rfl | hc
      · exact hc0
      · exact hall c (List.mem_of_mem_filter hc)

theorem SNode.insertAt_name {t c t' : SNode} {segs : List String}
    (h : t.insertAt segs c = some t') : t'.name = t.name := by
  cases segs with
  | nil =>
    simp only [SNode.insertAt, Option.some.injEq] at h
    subst h; rfl
  | cons seg rest =>
    simp only [SNode.insertAt] at h
    split at h
    · cases h
    · rename_i ch _
      cases hi : ch.insertAt rest c with
      | none => rw [hi] at h; cases h
      | some ch2 =>
        rw [hi] at h
        simp only [Option.map_some', Option.some.injEq] at h
        subst h; rfl

theorem SNode.insertAt_wf {c : SNode} (hc : c.WF) :
    ∀ (segs : List String) (t t' : SNode), t.WF → t.insertAt segs c = some t' → t'.WF := by
  intro segs
  induction segs with
  | nil =>
    intro t t' ht h
    cases t with
    | mk n a cs =>
      simp only [SNode.insertAt, Option.some.injEq] at h
      subst h
      exact upsert_wf ht hc
  | cons seg rest ih =>
    intro t t' ht h
    cases t with
    | mk n a cs =>
      simp only [SNode.insertAt] at h
      split at h
      · cases h
      · rename_i ch hf
        cases hi : ch.insertAt rest c with
        | none => rw [hi] at h; cases h
        | some ch2 =>
          rw [hi] at h
          simp only [Option.map_some', Option.some.injEq] at h
          subst h
          have hchmem : ch ∈ cs := List.mem_of_find?_eq_some hf
          have hchwf : ch.WF := by
            cases ht with
            | mk _ _ _ _ hall => exact hall ch hchmem
          exact upsert_wf ht (ih ch ch2 hchwf hi)

theorem SNode.removeAt_wf :
    ∀ (segs : List String) (t t' : SNode), t.WF → t.removeAt segs = some t' → t'.WF := by
  intro segs
  induction segs with
  | nil => intro t t' _ h; cases h
  | cons seg rest ih =>
    intro t t' ht h
    cases t with
    | mk n a cs =>
      cases rest with
      | nil =>
        simp only [SNode.removeAt] at h
        by_cases hany : List.any (SNode.children (.mk n a cs)) (fun c => c.name == seg) = true
        · rw [if_pos hany] at h
          simp only [Option.some.injEq] at h
          subst h
          exact filter_wf ht
        · rw [if_neg hany] at h; cases h
      | cons r rest' =>
        simp only [SNode.removeAt] at h
        split at h
        · cases h
        · rename_i ch hf
          cases hi : ch.removeAt (r :: rest') with
          | none => rw [hi] at h; cases h
          | some ch2 =>
            rw [hi] at h
            simp only [Option.map_some', Option.some.injEq] at h
            subst h
            have hchmem : ch ∈ cs := List.mem_of_find?_eq_some hf
            have hchwf : ch.WF := by
              cases ht with
              | mk _ _ _ _ hall => exact hall ch hchmem
            exact upsert_wf ht (ih ch ch2 hchwf hi)

theorem SNode.wf_paths_nodup : ∀ (t : SNode), t.WF → t.paths.Nodup := by
  refine SNode.inductionOn ?_
  intro n a cs ih hwf
  cases hwf with
  | mk _ _ _ hnod hall =>
    simp only [SNode.paths]
    rw [List.nodup_cons]
    constructor
    · intro hmem
      rcases List.mem_map.mp hmem with ⟨p, hp, heq⟩
      rw [SNode.pathsList_eq] at hp
      rcases List.mem_flatMap.mp hp with ⟨c, _, hpc⟩
      rcases SNode.mem_paths_head hpc with ⟨q, rfl⟩
      simp at heq
    · refine List.Nodup.map (fun x y hxy => ?_) ?_
      · exact (List.cons.injEq n x n y ▸ hxy).2
      · rw [SNode.pathsList_eq, List.nodup_flatMap]
        refine ⟨fun c hc => ih c hc (hall c hc), ?_⟩
        have hnod' : cs.Pairwise (fun a b => a.name ≠ b.name) :=
          List.pairwise_map.mp hnod
        refine hnod'.imp ?_
        intro x y hxy p hpx hpy
        rcases SNode.mem_paths_head hpx with ⟨q, rfl⟩
        rcases SNode.mem_paths_head hpy with ⟨q', heq⟩
        exact hxy (List.head_eq_of_cons_eq heq)

theorem add_node_wf (s : Option SNode) (name : String)
    (parentPath : Option (List String)) (attrs : List (String × String))
    (hs : SWF s) : SWF (add_node s name parentPath attrs) := by
  cases parentPath with
  | none => exact SNode.WF.mk _ _ _ (by simp) (by simp)
  | some segs =>
    cases s with
    | none => trivial
    | some root =>
      cases segs with
      | nil => exact hs
      | cons rootSeg rest =>
        simp only [add_node]
        by_cases hr : (rootSeg == root.name) = true
        · rw [if_pos hr]
          cases hi : root.insertAt rest (SNode.mk name attrs []) with
          | none => exact hs
          | some r2 =>
            exact SNode.insertAt_wf (SNode.WF.mk _ _ _ (by simp) (by simp))
              rest root r2 hs hi
        · rw [if_neg hr]; exact hs

theorem delete_node_wf (s : Option SNode) (path : List String)
    (hs : SWF s) : SWF (delete_node s path) := by
  cases s with
  | none => trivial
  | some root =>
    cases path with
    | nil => exact hs
    | cons r rest =>
      cases rest with
      | nil =>
        simp only [delete_node]
        by_cases hr : (r == root.name) = true
        · rw [if_pos hr]; trivial
        · rw [if_neg hr]; exact hs
      | cons p rest' =>
        simp only [delete_node]
        by_cases hr : (r == root.name) = true
        · rw [if_pos hr]
          cases hi : root.removeAt (p :: rest') with
          | none => exact hs
          | some r2 => exact SNode.removeAt_wf (p :: rest') root r2 hs hi
        · rw [if_neg hr]; exact hs

theorem applyOp_wf (s : Option SNode) (op : SchemaOp) (hs : SWF s) :
    SWF (applyOp s op) := by
  cases op with
  | add name parentPath attrs => exact add_node_wf s name parentPath attrs hs
  | del path => exact delete_node_wf s path hs

theorem applyOps_wf (ops : List SchemaOp) :
    ∀ (s : Option SNode), SWF s → SWF (applyOps s ops) := by
  induction ops with
  | nil => intro s hs; exact hs
  | cons op ops ih =>
    intro s hs
    exact ih (applyOp s op) (applyOp_wf s op hs)

/-- C2: after any sequence of add/delete operations starting from the empty
schema, no two nodes share a resolved path; and the CLI schema `add`
(detach-then-add, upsert) on an occupied path replaces the old node: in the
concrete example the old attributes and the old subtree are gone, the path
`r/a` occurs exactly once afterwards, and all paths stay distinct. -/
theorem C2_path_uniqueness :
    (∀ ops : List SchemaOp, (statePaths (applyOps none ops)).Nodup)
    ∧ schema_add (some (SNode.mk "r" []
        [SNode.mk "a" [("old", "1")] [SNode.mk "k" [] []]]))
        "a" ["r"] [("new", "2")]
      = some (SNode.mk "r" [] [SNode.mk "a" [("new", "2")] []])
    ∧ (statePaths (schema_add (some (SNode.mk "r" []
        [SNode.mk "a" [("old", "1")] [SNode.mk "k" [] []]]))
        "a" ["r"] [("new", "2")])).count ["r", "a"] = 1
    ∧ (statePaths (schema_add (some (SNode.mk "r" []
        [SNode.mk "a" [("old", "1")] [SNode.mk "k" [] []]]))
        "a" ["r"] [("new", "2")])).Nodup := by
  refine ⟨?_, rfl, by decide, by decide⟩
  intro ops
  have h := applyOps_wf ops none trivial
  cases happ : applyOps none ops with
  | none => simp [statePaths]
  | some t =>
    rw [happ] at h
    exact SNode.wf_paths_nodup t h

/-! ## Serialization (claim C3, spec sections 4.1 and 6) -/

/-- JSON document values (strings, arrays, objects). -/
inductive JValue where
  | str (s : String)
  | arr (items : List JValue)
  | obj (fields : List (String × JValue))

mutual
/-- Modelled from the spec: `to_json` writes a node as the document
`{name, attributes, children: [...]}` recursively (`taxonopy.schema` is not
in the repository; the written file is modelled as the document value). -/
def SNode.toJson : SNode → JValue
  | .mk n a cs => .obj [("name", .str n),
      ("attributes", .obj (a.map (fun kv => (kv.1, JValue.str kv.2)))),
      ("children", .arr (SNode.toJsonList cs))]
/-- Serialization of a list of subtrees. -/
def SNode.toJsonList : List SNode → List JValue
  | [] => []
  | c :: cs => SNode.toJson c :: SNode.toJsonList cs
end

/-- Parse a serialized attribute object back into the attribute mapping. -/
def parseAttrs : List (String × JValue) → Option (List (String × String))
  | [] => some []
  | (k, .str v) :: rest => (parseAttrs rest).map (fun a => (k, v) :: a)
  | _ => none

mutual
/-- Modelled from the spec: the parsing half of `from_json` on the document
shape written by `to_json`; `none` for a malformed document. -/
def parseNode : JValue → Option SNode
  | .obj [("name", .str n), ("attributes", .obj af), ("children", .arr cj)] =>
    match parseAttrs af, parseChildren cj with
    | some a, some cs => some (.mk n a cs)
    | _, _ => none
  | _ => none
/-- Parsing of a serialized child list. -/
def parseChildren : List JValue → Option (List SNode)
  | [] => some []
  | j :: rest =>
    match parseNode j, parseChildren rest with
    | some t, some ts => some (t :: ts)
    | _, _ => none
end

/-- Errors raised by the core (spec section 7). -/
inductive CoreError where
  | NotFoundError

/-- Modelled from the spec: `from_json` reads the schema file (`none` models
an absent file) and fails with `NotFoundError` when the file is absent or
malformed (`taxonopy.schema` is not in the repository). -/
def from_json (file : Option JValue) : Except CoreError SNode :=
  match file with
  | none => .error .NotFoundError
  | some j =>
    match parseNode j with
    | none => .error .NotFoundError
    | some t => .ok t

theorem parseAttrs_map (a : List (String × String)) :
    parseAttrs (a.map (fun kv => (kv.1, JValue.str kv.2))) = some a := by
  induction a with
  | nil => rfl
  | cons kv rest ih => cases kv; simp [parseAttrs, ih]

theorem parseChildren_toJsonList (cs : List SNode)
    (ih : ∀ c ∈ cs, parseNode c.toJson = some c) :
    parseChildren (SNode.toJsonList cs) = some cs := by
  induction cs with
  | nil => rfl
  | cons c cs ihl =>
    simp only [SNode.toJsonList, parseChildren,
      ih c (List.mem_cons_self c cs),
      ihl (fun x hx => ih x (List.mem_cons_of_mem c hx))]

theorem parse_toJson : ∀ (t : SNode), parseNode t.toJson = some t := by
  refine SNode.inductionOn ?_
  intro n a cs ih
  simp only [SNode.toJson, parseNode, parseAttrs_map,
    parseChildren_toJsonList cs ih]

/-- C3: for every tree built by a sequence of add/delete edits, serializing
with `to_json` and reloading with `from_json` returns exactly the original
tree — in particular its set of (path, attributes) pairs is identical — and
`from_json` fails with `NotFoundError` on an absent or malformed file. -/
theorem C3_roundtrip :
    (∀ (ops : List SchemaOp) (t : SNode), applyOps none ops = some t →
      from_json (some t.toJson) = .ok t)
    ∧ (∀ t : SNode,
      (from_json (some t.toJson)).map SNode.pathAttrs = .ok t.pathAttrs)
    ∧ from_json none = .error CoreError.NotFoundError
    ∧ from_json (some (JValue.str "oops")) = .error CoreError.NotFoundError := by
  refine ⟨?_, ?_, rfl, rfl⟩
  · intro ops t _
    simp [from_json, parse_toJson]
  · intro t
    simp [from_json, parse_toJson, Except.map]

/-- Closed instance of `C3_roundtrip`: the round trip evaluated on the tree
built by one root-creating edit. -/
theorem C3_roundtrip_witness :
    from_json (some (SNode.mk "r" [("type", "str")] []).toJson)
      = .ok (SNode.mk "r" [("type", "str")] []) :=
  C3_roundtrip.1 [SchemaOp.add "r" none [("type", "str")]]
    (SNode.mk "r" [("type", "str")] []) rfl

/-! ## Validation/diff engine (claims C4 and C5, spec section 4.4) -/

/-- A record set: identifier to record, as materialized by `to_records`. -/
abbrev RecordSet := List (String × Record)

/-- Canonical, order-independent comparison of two records: equality as
multisets of (path, value) pairs. -/
def recMatch (r1 r2 : Record) : Bool := r1.isPerm r2

/-- Modelled from the spec: `find_non_matching_records` reports the
identifiers of records of the first set whose canonical form does not occur
in the second set (`taxonopy.utils` is not in the repository). -/
def find_non_matching_records (one two : RecordSet) : List String :=
  (one.filter (fun p => ! two.any (fun q => recMatch p.2 q.2))).map Prod.fst

theorem find_non_matching_nil (X Y : RecordSet)
    (h : ∀ p ∈ X, ∃ q ∈ Y, recMatch p.2 q.2 = true) :
    find_non_matching_records X Y = [] := by
  simp only [find_non_matching_records, List.map_eq_nil_iff,
    List.filter_eq_nil_iff]
  intro p hp
  rcases h p hp with ⟨q, hq, hm⟩
  simp only [Bool.not_eq_true', Bool.not_eq_false, List.any_eq_true]
  exact ⟨q, hq, hm⟩

/-- C4: two record sets with identical contents — every record of one has a
field-order-independent twin in the other, regardless of identifier
numbering — produce an empty diff in both directions (so one side is empty
iff the other is); and emptiness of the diff is unaffected by the iteration
order of either record set. -/
theorem C4_diff_symmetry :
    (∀ X Y : RecordSet,
      (∀ p ∈ X, ∃ q ∈ Y, recMatch p.2 q.2 = true) →
      (∀ q ∈ Y, ∃ p ∈ X, recMatch q.2 p.2 = true) →
      find_non_matching_records X Y = [] ∧ find_non_matching_records Y X = []
        ∧ (find_non_matching_records X Y = []
          ↔ find_non_matching_records Y X = []))
    ∧ (∀ (X X' Y : RecordSet), X.Perm X' →
      (find_non_matching_records X Y = []
        ↔ find_non_matching_records X' Y = []))
    ∧ (∀ (X Y Y' : RecordSet), Y.Perm Y' →
      find_non_matching_records X Y = find_non_matching_records X Y') := by
  refine ⟨?_, ?_, ?_⟩
  · intro X Y hXY hYX
    have h1 := find_non_matching_nil X Y hXY
    have h2 := find_non_matching_nil Y X hYX
    exact ⟨h1, h2, by rw [h1, h2]⟩
  · intro X X' Y hperm
    have hp : (find_non_matching_records X Y).Perm
        (find_non_matching_records X' Y) :=
      (hperm.filter _).map _
    constructor
    · intro h
      have := hp.length_eq
      rw [h] at this
      exact List.length_eq_zero.mp this.symm
    · intro h
      have := hp.length_eq
      rw [h] at this
      exact List.length_eq_zero.mp this
  · intro X Y Y' hperm
    have hany : ∀ p : String × Record,
        (Y.any (fun q => recMatch p.2 q.2)) = (Y'.any (fun q => recMatch p.2 q.2)) := by
      intro p
      cases hb : Y'.any (fun q => recMatch p.2 q.2) with
      | false =>
        rw [Bool.eq_false_iff]
        intro hcon
        rcases List.any_eq_true.mp hcon with ⟨q, hq, hm⟩
        rw [Bool.eq_false_iff] at hb
        exact hb (List.any_eq_true.mpr ⟨q, hperm.mem_iff.mp hq, hm⟩)
      | true =>
        rcases List.any_eq_true.mp hb with ⟨q, hq, hm⟩
        exact List.any_eq_true.mpr ⟨q, hperm.mem_iff.mpr hq, hm⟩
    simp only [find_non_matching_records]
    congr 1
    apply List.filter_congr
    intro p _
    rw [hany p]

/-- Closed instance of `C4_diff_symmetry`: two one-record sets with the same
content under different identifiers and field orders diff empty both ways. -/
theorem C4_diff_symmetry_witness :
    find_non_matching_records [("1", [("a", "x"), ("b", "y")])]
        [("7", [("b", "y"), ("a", "x")])] = []
      ∧ find_non_matching_records [("7", [("b", "y"), ("a", "x")])]
        [("1", [("a", "x"), ("b", "y")])] = []
      ∧ (find_non_matching_records [("1", [("a", "x"), ("b", "y")])]
          [("7", [("b", "y"), ("a", "x")])] = []
        ↔ find_non_matching_records [("7", [("b", "y"), ("a", "x")])]
          [("1", [("a", "x"), ("b", "y")])] = []) :=
  C4_diff_symmetry.1 [("1", [("a", "x"), ("b", "y")])]
    [("7", [("b", "y"), ("a", "x")])] (by decide) (by decide)

/-- Embedded from `_db_equal` (src/src/taxonopy/_cli/__init__.py lines
262-270): the command prints "Databases are equal" when
`find_non_matching_records` returns an empty list, and otherwise prints the
non-matching identifiers joined by newlines under a header. -/
def db_equal_report (one two : RecordSet) : String :=
  let missing := find_non_matching_records one two
  if missing.isEmpty then "Databases are equal"
  else "Differences detected in records:\n" ++ String.intercalate "\n" missing

theorem diff_header_ne (s : String) :
    "Differences detected in records:\n" ++ s ≠ "Databases are equal" := by
  intro h
  have hl := congrArg String.length h
  rw [String.length_append] at hl
  have h1 : ("Differences detected in records:\n" : String).length = 33 := by decide
  have h2 : ("Databases are equal" : String).length = 19 := by decide
  rw [h1, h2] at hl
  omega

/-- C5: the `db equal` command reports the databases as equal exactly when
`find_non_matching_records` on the two materialized record sets is empty; in
every other case it prints the non-matching record identifiers. -/
theorem C5_db_equal :
    ∀ one two : RecordSet,
      (db_equal_report one two = "Databases are equal"
        ↔ find_non_matching_records one two = [])
      ∧ (find_non_matching_records one two ≠ [] →
        db_equal_report one two = "Differences detected in records:\n"
          ++ String.intercalate "\n" (find_non_matching_records one two)) := by
  intro one two
  rcases hm : find_non_matching_records one two with _ | ⟨i, rest⟩
  · refine ⟨?_, fun hne => absurd rfl hne⟩
    simp [db_equal_report, hm]
  · have hrep : db_equal_report one two
        = "Differences detected in records:\n"
          ++ String.intercalate "\n" (i :: rest) := by
      simp [db_equal_report, hm]
    refine ⟨?_, fun _ => hrep⟩
    constructor
    · intro h
      rw [hrep] at h
      exact absurd h (diff_header_ne _)
    · intro h
      cases h

/-- Closed instance of `C5_db_equal`: with one non-matching record the
command prints the identifier list, not the equality message. -/
theorem C5_db_equal_witness :
    db_equal_report [("1", [("a", "x")])] []
      = "Differences detected in records:\n"
        ++ String.intercalate "\n"
          (find_non_matching_records [("1", [("a", "x")])] []) :=
  (C5_db_equal [("1", [("a", "x")])] []).2 (by decide)

/-! ## Schema CLI attribute defaults (claim C6) -/

theorem lookup_append (k : String) (l₁ l₂ : List (String × String)) :
    (l₁ ++ l₂).lookup k = (l₁.lookup k).or (l₂.lookup k) := by
  induction l₁ with
  | nil => rfl
  | cons kv rest ih =>
    cases kv with
    | mk k' v =>
      by_cases h : (k == k') = true
      · simp [List.lookup, h]
      · simp [List.lookup, h, ih]

/-- Embedded from `_schema_new` (src lines 730-731): inject `type=str` when
the caller supplied no `type` attribute. -/
def addTypeDefault (a : List (String × String)) : List (String × String) :=
  if (a.lookup "type").isSome then a else a ++ [("type", "str")]

/-- Embedded from `_schema_new` (src line 732): inject `required=True` when
the caller supplied no `required` attribute. -/
def addRequiredDefault (a : List (String × String)) : List (String × String) :=
  if (a.lookup "required").isSome then a else a ++ [("required", "True")]

/-- Embedded from `_schema_new` (src lines 730-732): the attribute mapping
used for the new root after defaulting. -/
def schema_new_attrs (node_attr : List (String × String)) : List (String × String) :=
  addRequiredDefault (addTypeDefault node_attr)

/-- Embedded from `_schema_new` (src lines 734-735): a fresh tree whose root
is the new field carrying the defaulted attributes. -/
def schema_new (name : String) (node_attr : List (String × String)) : Option SNode :=
  add_node none name none (schema_new_attrs node_attr)

theorem addTypeDefault_type (a : List (String × String)) :
    (addTypeDefault a).lookup "type" = (a.lookup "type").or (some "str") := by
  unfold addTypeDefault
  by_cases h : (a.lookup "type").isSome
  · rcases Option.isSome_iff_exists.mp h with ⟨v, hv⟩
    rw [if_pos h, hv]
    rfl
  · rw [if_neg h, lookup_append,
      Option.not_isSome_iff_eq_none.mp h]
    rfl

theorem addTypeDefault_other (a : List (String × String)) (k : String)
    (hk : k ≠ "type") : (addTypeDefault a).lookup k = a.lookup k := by
  unfold addTypeDefault
  by_cases h : (a.lookup "type").isSome
  · rw [if_pos h]
  · rw [if_neg h, lookup_append]
    have : ([("type", "str")] : List (String × String)).lookup k = none := by
      simp [List.lookup, beq_eq_false_iff_ne.mpr hk]
    rw [this]
    cases a.lookup k <;> rfl

theorem addRequiredDefault_required (a : List (String × String)) :
    (addRequiredDefault a).lookup "required"
      = (a.lookup "required").or (some "True") := by
  unfold addRequiredDefault
  by_cases h : (a.lookup "required").isSome
  · rcases Option.isSome_iff_exists.mp h with ⟨v, hv⟩
    rw [if_pos h, hv]
    rfl
  · rw [if_neg h, lookup_append,
      Option.not_isSome_iff_eq_none.mp h]
    rfl

theorem addRequiredDefault_other (a : List (String × String)) (k : String)
    (hk : k ≠ "required") : (addRequiredDefault a).lookup k = a.lookup k := by
  unfold addRequiredDefault
  by_cases h : (a.lookup "required").isSome
  · rw [if_pos h]
  · rw [if_neg h, lookup_append]
    have : ([("required", "True")] : List (String × String)).lookup k = none := by
      simp [List.lookup, beq_eq_false_iff_ne.mpr hk]
    rw [this]
    cases a.lookup k <;> rfl

theorem SNode.findAt_insertAt :
    ∀ (segs : List String) (t t' c : SNode), t.insertAt segs c = some t' →
      t'.findAt (segs ++ [c.name]) = some c := by
  intro segs
  induction segs with
  | nil =>
    intro t t' c h
    simp only [SNode.insertAt, Option.some.injEq] at h
    subst h
    have hf : (SNode.mk t.name t.attributes
        (upsertChild t.children c)).children.find? (fun x => x.name == c.name)
        = some c := by
      simp only [SNode.children, upsertChild]
      exact List.find?_cons_of_pos _ (by simp)
    simp only [List.nil_append, SNode.findAt, hf]
  | cons seg rest ih =>
    intro t t' c h
    simp only [SNode.insertAt] at h
    split at h
    · cases h
    · rename_i ch hf
      cases hi : ch.insertAt rest c with
      | none => rw [hi] at h; cases h
      | some ch2 =>
        rw [hi] at h
        simp only [Option.map_some', Option.some.injEq] at h
        subst h
        have hchname : ch.name = seg := by
          have := List.find?_some hf
          simpa using this
        have hch2name : ch2.name = seg := by
          rw [SNode.insertAt_name hi, hchname]
        have hfind : (SNode.mk t.name t.attributes
            (upsertChild t.children ch2)).children.find? (fun x => x.name == seg)
            = some ch2 := by
          simp only [SNode.children, upsertChild]
          exact List.find?_cons_of_pos _ (by simp [hch2name])
        simp only [List.cons_append, SNode.findAt, hfind]
        exact ih ch ch2 c hi

/-- C6: creating a root via `schema new` injects `type=str` and
`required=True` exactly when those attributes were not supplied, preserves
all supplied attribute values, touches no other key, and the fresh tree's
root carries the defaulted mapping; a non-root `schema add` applies only the
supplied attributes: the node found at `parent/name` afterwards is exactly
the fresh node with the supplied mapping and no children. -/
theorem C6_default_attributes :
    (∀ na : List (String × String), na.lookup "type" = none →
      (schema_new_attrs na).lookup "type" = some "str")
    ∧ (∀ na : List (String × String), na.lookup "required" = none →
      (schema_new_attrs na).lookup "required" = some "True")
    ∧ (∀ (na : List (String × String)) (v : String), na.lookup "type" = some v →
      (schema_new_attrs na).lookup "type" = some v)
    ∧ (∀ (na : List (String × String)) (v : String), na.lookup "required" = some v →
      (schema_new_attrs na).lookup "required" = some v)
    ∧ (∀ (na : List (String × String)) (k : String), k ≠ "type" → k ≠ "required" →
      (schema_new_attrs na).lookup k = na.lookup k)
    ∧ (∀ (name : String) (na : List (String × String)),
      schema_new name na = some (SNode.mk name (schema_new_attrs na) []))
    ∧ (∀ (t t' : SNode) (segs : List String) (name : String)
        (na : List (String × String)),
      t.insertAt segs (SNode.mk name na []) = some t' →
      t'.findAt (segs ++ [name]) = some (SNode.mk name na [])) := by
  refine ⟨?_, ?_, ?_, ?_, ?_, fun _ _ => rfl, ?_⟩
  · intro na h
    rw [schema_new_attrs, addRequiredDefault_other _ _ (by decide),
      addTypeDefault_type, h]
    rfl
  · intro na h
    rw [schema_new_attrs, addRequiredDefault_required,
      addTypeDefault_other _ _ (by decide), h]
    rfl
  · intro na v h
    rw [schema_new_attrs, addRequiredDefault_other _ _ (by decide),
      addTypeDefault_type, h]
    rfl
  · intro na v h
    rw [schema_new_attrs, addRequiredDefault_required,
      addTypeDefault_other _ _ (by decide), h]
    rfl
  · intro na k hk1 hk2
    rw [schema_new_attrs, addRequiredDefault_other _ _ hk2,
      addTypeDefault_other _ _ hk1]
  · intro t t' segs name na h
    exact SNode.findAt_insertAt segs t t' (SNode.mk name na []) h

/-- Closed instance of `C6_default_attributes`: with no supplied attributes
the root gets `type=str`; a non-root insert of `x` with only `foo=bar` under
root `r` resolves to exactly that node. -/
theorem C6_default_attributes_witness :
    (schema_new_attrs []).lookup "type" = some "str"
      ∧ (SNode.mk "r" [] [SNode.mk "x" [("foo", "bar")] []]).findAt
          (([] : List String) ++ ["x"]) = some (SNode.mk "x" [("foo", "bar")] []) :=
  ⟨C6_default_attributes.1 [] rfl,
    C6_default_attributes.2.2.2.2.2.2 (SNode.mk "r" [] [])
      (SNode.mk "r" [] [SNode.mk "x" [("foo", "bar")] []]) [] "x"
      [("foo", "bar")] rfl⟩

/-! ## Document store lifecycle (claims C7 and C8, spec section 4.2) -/

/-- Modelled from the spec: opening a Document Store fails with
`NotFoundError` iff `check_existing` is set and the backing file is absent;
otherwise an absent file yields a fresh empty store (`taxonopy.db` is not in
the repository; the backing file is `none` when absent, otherwise the stored
record set). -/
def openStore (file : Option RecordSet) (check_existing : Bool) :
    Except CoreError RecordSet :=
  match file with
  | some recs => .ok recs
  | none => if check_existing then .error .NotFoundError else .ok []

/-- Boolean test for the error case of a core result. -/
def isErr {α : Type} (e : Except CoreError α) : Bool :=
  match e with
  | .error _ => true
  | .ok _ => false

/-- Embedded from `_db_flush` (src lines 482-498): the flush command opens
`JSONDataBase(args.db)` without `check_existing` (the spec's default for the
flag is unset). -/
def db_flush_open (dbFile : Option RecordSet) : Except CoreError RecordSet :=
  openStore dbFile false

/-- C8: opening fails iff `check_existing` is set and the backing file is
absent, and that failure is `NotFoundError`; with `check_existing` unset an
absent file yields an empty store, so the open performed by the flush
command never fails on a missing file. -/
theorem C8_open_check_existing :
    (∀ (f : Option RecordSet) (c : Bool),
      isErr (openStore f c) = true ↔ (c = true ∧ f = none))
    ∧ (∀ (f : Option RecordSet) (c : Bool), isErr (openStore f c) = true →
      openStore f c = .error CoreError.NotFoundError)
    ∧ openStore none false = .ok []
    ∧ (∀ f : Option RecordSet, isErr (db_flush_open f) = false) := by
  refine ⟨?_, ?_, rfl, ?_⟩
  · intro f c
    cases f <;> cases c <;> simp [openStore, isErr]
  · intro f c h
    cases f <;> cases c <;> simp_all [openStore, isErr]
  · intro f
    cases f <;> rfl

/-- Closed instance of `C8_open_check_existing`: an absent file with
`check_existing` set fails with `NotFoundError`. -/
theorem C8_open_check_existing_witness :
    openStore none true = .error CoreError.NotFoundError :=
  C8_open_check_existing.2.1 none true rfl

/-- The file-system view relevant to flush: the live database file content
and the temporary file used while flushing. -/
structure FlushFS where
  live : Option String
  temp : Option String

/-- Modelled from the spec: `flush` as its atomic sequence of file-system
steps — write the serialized in-memory state to a temporary location, then
rename/replace the live file; the live file is never truncated in place
(`taxonopy.db` is not in the repository). -/
def flush_steps (content : String) : List (FlushFS → FlushFS) :=
  [fun fs => { fs with temp := some content },
   fun fs => { live := fs.temp, temp := none }]

/-- Run an initial segment of a step sequence (a crash after `k` steps). -/
def runSteps (fs : FlushFS) (steps : List (FlushFS → FlushFS)) : FlushFS :=
  steps.foldl (fun a f => f a) fs

/-- C7: flush writes to a temporary location and replaces the live file only
in its final step, so a failure at any point before the rename leaves the
previously persisted live file exactly as it was; a completed flush leaves
the serialized state as the live file. -/
theorem C7_atomic_flush :
    (∀ (fs : FlushFS) (content : String) (k : Nat),
      k < (flush_steps content).length →
      (runSteps fs ((flush_steps content).take k)).live = fs.live)
    ∧ (∀ (fs : FlushFS) (content : String),
      (runSteps fs (flush_steps content)).live = some content) := by
  constructor
  · intro fs content k hk
    simp only [flush_steps, List.length_cons, List.length_nil] at hk
    match k, hk with
    | 0, _ => rfl
    | 1, _ => rfl
  · intro fs content
    rfl

/-- Closed instance of `C7_atomic_flush`: crashing after the temporary write
but before the rename leaves the old live file intact. -/
theorem C7_atomic_flush_witness :
    (runSteps ⟨some "old", none⟩ ((flush_steps "new").take 1)).live = some "old" :=
  C7_atomic_flush.1 ⟨some "old", none⟩ "new" 1 (by simp [flush_steps])

/-! ## CLI db handlers after a failed open (claim C9) -/

/-- How a CLI handler invocation terminated. -/
inductive PyExit where
  | clean
  | nameError

/-- One CLI handler execution: the messages printed and how it ended. -/
structure HandlerRun where
  printed : List String
  outcome : PyExit

/-- Embedded from the repeated CLI pattern (e.g. src lines 131-134)
`try: db = JSONDataBase(args.db, check_existing=True)`
`except IOError: print("Database not found")`: the except block prints but
does not return, so on failure the local `db` stays unbound (`none`). -/
def tryOpenDb (dbFile : Option RecordSet) : Option RecordSet × List String :=
  match openStore dbFile true with
  | .ok db => (some db, [])
  | .error _ => (none, ["Database not found"])

/-- Embedded from the repeated CLI pattern (e.g. src lines 136-139)
`try: schema = SCHTree.from_json(args.schema)`
`except IOError: print("Schema not found")`: on failure the local `schema`
stays unbound (`none`). -/
def trySchema (schemaFile : Option JValue) : Option SNode × List String :=
  match from_json schemaFile with
  | .ok s => (some s, [])
  | .error _ => (none, ["Schema not found"])

/-- Embedded from `_db_new` (src lines 114-141): open db and schema through
the printing except-blocks, then call `new_record(schema, db)`; evaluating
an unbound local raises `NameError` at that call (the interactive behavior
of `new_record` itself, from the absent `taxonopy._cli.db`, is not part of
this claim and is modelled as a clean exit). -/
def db_new_run (dbFile : Option RecordSet) (schemaFile : Option JValue) : HandlerRun :=
  let db := tryOpenDb dbFile
  let sch := trySchema schemaFile
  match sch.1, db.1 with
  | some _, some _ => ⟨db.2 ++ sch.2, .clean⟩
  | _, _ => ⟨db.2 ++ sch.2, .nameError⟩

/-- Embedded from `_db_update` (src lines 149-193): same open pattern, then
`update_records(args.path, schema, db, ...)`; an unbound `schema` or `db`
raises `NameError` at the call (the record update itself, from the absent
`taxonopy._cli.db`, is modelled as a clean exit). -/
def db_update_run (dbFile : Option RecordSet) (schemaFile : Option JValue) : HandlerRun :=
  let db := tryOpenDb dbFile
  let sch := trySchema schemaFile
  match sch.1, db.1 with
  | some _, some _ => ⟨db.2 ++ sch.2, .clean⟩
  | _, _ => ⟨db.2 ++ sch.2, .nameError⟩

/-- Modelled from the spec: `count` is the number of matching records. -/
def countRecords (db : RecordSet) (q : Query) : Nat :=
  (db.filter (fun p => q.matches p.2)).length

/-- Modelled from the spec: `search` restricts the store to the records
matching the query. -/
def searchRecords (db : RecordSet) (q : Query) : RecordSet :=
  db.filter (fun p => q.matches p.2)

/-- Rendering of one record when printed, field by field. -/
def recordRepr (r : Record) : String :=
  String.intercalate ", " (r.map (fun kv => kv.1 ++ ": " ++ kv.2))

/-- Embedded from `_db_count` (src lines 322-350): open db through the
printing except-block, build the query, then `db.count(query)`; an unbound
`db` raises `NameError` there. -/
def db_count_run (dbFile : Option RecordSet) (path : String)
    (value : Option String) (e : Bool) : HandlerRun :=
  let db := tryOpenDb dbFile
  let q := make_query path value e
  match db.1 with
  | some recs => ⟨db.2 ++ [path ++ ": " ++ toString (countRecords recs q)], .clean⟩
  | none => ⟨db.2, .nameError⟩

/-- Embedded from `_db_show` (src lines 416-445): open db through the
printing except-block, build the query, then `db.search(query)` and print
each matching record; an unbound `db` raises `NameError` at the search. -/
def db_show_run (dbFile : Option RecordSet) (path : String)
    (value : Option String) (e : Bool) : HandlerRun :=
  let db := tryOpenDb dbFile
  let q := make_query path value e
  match db.1 with
  | some recs =>
    ⟨db.2 ++ (searchRecords recs q).map (fun p => recordRepr p.2), .clean⟩
  | none => ⟨db.2, .nameError⟩

/-- C9: with the database file absent, each of the `new`, `update`, `count`
and `show` handlers prints "Database not found" but continues past the
except block, and the later use of the unbound local raises `NameError`
instead of exiting cleanly. -/
theorem C9_missing_db_name_error :
    (∀ schemaFile : Option JValue,
      (db_new_run none schemaFile).printed.head? = some "Database not found"
      ∧ (db_new_run none schemaFile).outcome = .nameError)
    ∧ (∀ schemaFile : Option JValue,
      (db_update_run none schemaFile).printed.head? = some "Database not found"
      ∧ (db_update_run none schemaFile).outcome = .nameError)
    ∧ (∀ (path : String) (value : Option String) (e : Bool),
      (db_count_run none path value e).printed = ["Database not found"]
      ∧ (db_count_run none path value e).outcome = .nameError)
    ∧ (∀ (path : String) (value : Option String) (e : Bool),
      (db_show_run none path value e).printed = ["Database not found"]
      ∧ (db_show_run none path value e).outcome = .nameError) := by
  refine ⟨?_, ?_, ?_, ?_⟩
  · intro schemaFile
    cases h : from_json schemaFile <;>
      simp [db_new_run, tryOpenDb, trySchema, openStore, h]
  · intro schemaFile
    cases h : from_json schemaFile <;>
      simp [db_update_run, tryOpenDb, trySchema, openStore, h]
  · intro path value e
    exact ⟨rfl, rfl⟩
  · intro path value e
    exact ⟨rfl, rfl⟩

/-! ## Dry-run writes nothing (claim C10) -/

/-- Embedded from `_schema_new` (src lines 737-740): the files written by the
handler after printing the tree — nothing under `--dry-run` (the handler
returns before `to_json`), otherwise the serialized tree at the schema
path. -/
def schema_new_writes (dry : Bool) (schemaPath : String) (name : String)
    (node_attr : List (String × String)) : List (String × JValue) :=
  if dry then []
  else
    match schema_new name node_attr with
    | some t => [(schemaPath, t.toJson)]
    | none => []

/-- Embedded from `_schema_add` (src lines 776-801): the output path is
`--out` when given, else the schema path; nothing is written under
`--dry-run` (the handler returns before `to_json`). -/
def schema_add_writes (dry : Bool) (schemaPath : String) (outArg : Option String)
    (s : Option SNode) (name : String) (parent : List String)
    (node_attr : List (String × String)) : List (String × JValue) :=
  let out := outArg.getD schemaPath
  if dry then []
  else
    match schema_add s name parent node_attr with
    | some t => [(out, t.toJson)]
    | none => []

/-- Embedded from `_schema_delete` (src lines 808-840): the output path is
`--out` when given, else the schema path; nothing is written under
`--dry-run` (the handler returns before `to_json`). -/
def schema_delete_writes (dry : Bool) (schemaPath : String) (outArg : Option String)
    (s : Option SNode) (path : List String) : List (String × JValue) :=
  let out := outArg.getD schemaPath
  if dry then []
  else
    match delete_node s path with
    | some t => [(out, t.toJson)]
    | none => []

/-- Apply a list of file writes to a modelled file system (path to
content). -/
def applyWrites (fs : String → Option JValue) (ws : List (String × JValue)) :
    String → Option JValue :=
  ws.foldl (fun acc w => fun q => if q = w.1 then some w.2 else acc q) fs

/-- C10: with `--dry-run` set each of the schema `new`, `add` and `delete`
handlers performs no file write at all, so the on-disk schema file and any
`--out` destination are left unchanged. -/
theorem C10_dry_run_writes_nothing :
    (∀ (schemaPath name : String) (node_attr : List (String × String)),
      schema_new_writes true schemaPath name node_attr = [])
    ∧ (∀ (schemaPath : String) (outArg : Option String) (s : Option SNode)
        (name : String) (parent : List String)
        (node_attr : List (String × String)),
      schema_add_writes true schemaPath outArg s name parent node_attr = [])
    ∧ (∀ (schemaPath : String) (outArg : Option String) (s : Option SNode)
        (path : List String),
      schema_delete_writes true schemaPath outArg s path = [])
    ∧ (∀ (fs : String → Option JValue) (schemaPath name : String)
        (node_attr : List (String × String)),
      applyWrites fs (schema_new_writes true schemaPath name node_attr) = fs)
    ∧ (∀ (fs : String → Option JValue) (schemaPath : String)
        (outArg : Option String) (s : Option SNode) (name : String)
        (parent : List String) (node_attr : List (String × String)),
      applyWrites fs (schema_add_writes true schemaPath outArg s name parent
        node_attr) = fs)
    ∧ (∀ (fs : String → Option JValue) (schemaPath : String)
        (outArg : Option String) (s : Option SNode) (path : List String),
      applyWrites fs (schema_delete_writes true schemaPath outArg s path) = fs) :=
  ⟨fun _ _ _ => rfl, fun _ _ _ _ _ _ => rfl, fun _ _ _ _ => rfl,
    fun _ _ _ _ => rfl, fun _ _ _ _ _ _ _ => rfl, fun _ _ _ _ _ => rfl⟩

end Taxonopy
